import Mathlib

/-!
Shallow embedding of the `vibe-hosted` playlist-migration repository.

The repository contains three near-duplicate implementations of the same
Jellyfin → Plex playlist migration pipeline:

* `src/migrate_playlist.py`   — `PlaylistMigrator.migrate_playlist`, with
  `PlexClient.find_media_by_path` scanning every item of every library
  section and comparing `part.file == file_path` by exact string equality;
  supports a `--dry-run` flag.  Embedded below with an `A` suffix.
* `src/playlist_migrator.py`  — `migrate_playlist`, which searches Jellyfin
  playlists by term, applies a case-insensitive exact filter with a logged
  first-result fallback, and creates the Plex playlist under the name
  `f"{name} (from Jellyfin)"`.  Embedded with a `B` suffix.
* `src/migrate_playlist/cli.py` — `migrate_playlist`, which matches the
  playlist name case-sensitively, silently skips items without a `Path`,
  and creates the playlist under the requested name.  Embedded with a `C`
  suffix.

External servers are modelled as data inside a per-run configuration
structure: the Jellyfin playlist listing / search response, the Plex library
sections with their indexed file paths, and flags recording whether a given
remote call raises.  Each `run…` function is a pure function from such a
configuration to a result record that captures the observable effects of a
run: boolean outcome, the list of playlist-creation calls issued, the
matched destination items in order, and the unmatched/warning report.
-/

namespace VibeHosted

/-- Python truthiness of an optional string: `if not file_path` treats both
`None` and the empty string `""` as missing. -/
def pyTruthy : Option String → Option String
  | none => none
  | some s => if s = "" then none else some s

/-- Python's `str.lower()`, as used for the case-insensitive playlist-name
comparisons: character-wise lowering of the string. -/
def pyLower (s : String) : String := ⟨s.data.map Char.toLower⟩

/-! ### Embedding A: `src/migrate_playlist.py` -/

/-- A Plex media item as seen by `PlexClient.find_media_by_path`:
`hasattr(item, 'media')` is modelled by `media : Option _`; each element of
`media` is one `Media` object, represented by the list of its parts' `file`
path strings (`part.file`). -/
structure PlexItemA where
  title : String
  media : Option (List (List String))
deriving DecidableEq, Repr

/-- One Plex library section.  `err = true` models `section.all()` raising,
which the source catches (`except Exception`) and skips with `continue`. -/
structure SectionA where
  title : String
  err : Bool
  items : List PlexItemA
deriving DecidableEq, Repr

/-- `if part.file == file_path` over all media parts of one item:
the match test of `PlexClient.find_media_by_path`. -/
def itemHasPath (it : PlexItemA) (fp : String) : Bool :=
  match it.media with
  | none => false
  | some ms => ms.any (fun parts => parts.any (fun f => f == fp))

/-- Trace of one `PlexClient.find_media_by_path` call in
`migrate_playlist.py`: the returned item, the section titles queried (a
raising section is still queried — its query is what raises), and the
`logging.warning(f"Error searching section {section.title}: {e}")` messages
emitted. -/
structure SearchTraceA where
  result : Option PlexItemA
  queried : List String
  warnings : List String
deriving DecidableEq, Repr

/-- `PlexClient.find_media_by_path` of `migrate_playlist.py`.  Faithful to
the source: sections are scanned in order; an erroring section is logged
with `logging.warning` and skipped (`continue`); the first item of the
first non-erroring section containing a part whose `file` equals `fp`
exactly is returned. -/
def findMediaByPathA : List SectionA → String → SearchTraceA
  | [], _ => ⟨none, [], []⟩
  | s :: rest, fp =>
    if s.err then
      let r := findMediaByPathA rest fp
      ⟨r.result, s.title :: r.queried,
        ("Error searching section " ++ s.title) :: r.warnings⟩
    else
      match s.items.find? (fun it => itemHasPath it fp) with
      | some x => ⟨some x, [s.title], []⟩
      | none =>
        let r := findMediaByPathA rest fp
        ⟨r.result, s.title :: r.queried, r.warnings⟩

/-- An entry of `missing_items` in `PlaylistMigrator.migrate_playlist`.
The source appends `item_name` when no file path was found and
`f"{item_name} ({file_path})"` when the Plex search found nothing; the two
branches are kept as distinct constructors, with `render` giving the exact
string the source logs. -/
inductive MissingEntry where
  | noFilePath (name : String)
  | notFound (name : String) (path : String)
deriving DecidableEq, Repr

/-- The string the source appends to `missing_items` for this entry. -/
def MissingEntry.render : MissingEntry → String
  | .noFilePath n => n
  | .notFound n p => n ++ " (" ++ p ++ ")"

/-- A Jellyfin playlist item: `item.get('Name', 'Unknown')` and the
`MediaSources` list, each source carrying an optional `Path`. -/
structure JFItem where
  name : Option String
  mediaSources : List (Option String)
deriving DecidableEq, Repr

/-- `item.get('Name', 'Unknown')`. -/
def jfName (it : JFItem) : String := it.name.getD "Unknown"

/-- The file-path extraction of the per-item loop:
`if 'MediaSources' in item and item['MediaSources']:` then
`media_source = item['MediaSources'][0]`, `if 'Path' in media_source:`.
An absent `MediaSources` key is modelled as the empty list. -/
def extractPathA (it : JFItem) : Option String :=
  match it.mediaSources with
  | [] => none
  | ms :: _ => ms

/-- One iteration of the per-item loop of
`PlaylistMigrator.migrate_playlist`, instrumented with the list of library
sections queried for this item.  `if not file_path` (Python truthiness) puts
the item in `missing_items` with its bare name, without ever calling
`find_media_by_path`; otherwise the Plex search decides matched vs
`name (path)`. -/
def processItemA (sections : List SectionA) (it : JFItem) :
    (PlexItemA ⊕ MissingEntry) × List String :=
  match pyTruthy (extractPathA it) with
  | none => (Sum.inr (MissingEntry.noFilePath (jfName it)), [])
  | some p =>
    let r := findMediaByPathA sections p
    match r.result with
    | some x => (Sum.inl x, r.queried)
    | none => (Sum.inr (MissingEntry.notFound (jfName it) p), r.queried)

/-- The matched item this source item resolves to, if any. -/
def resolveItemA (sections : List SectionA) (it : JFItem) : Option PlexItemA :=
  match (processItemA sections it).1 with
  | Sum.inl x => some x
  | Sum.inr _ => none

/-- The `missing_items` entry this source item produces, if any. -/
def missingOfA (sections : List SectionA) (it : JFItem) : Option MissingEntry :=
  match (processItemA sections it).1 with
  | Sum.inl _ => none
  | Sum.inr e => some e

/-- The accumulation loop of `PlaylistMigrator.migrate_playlist`: builds
`plex_items` and `missing_items` in source-item order. -/
def migrateLoopA (sections : List SectionA) : List JFItem → List PlexItemA × List MissingEntry
  | [] => ([], [])
  | it :: rest =>
    let r := migrateLoopA sections rest
    match (processItemA sections it).1 with
    | Sum.inl x => (x :: r.1, r.2)
    | Sum.inr e => (r.1, e :: r.2)

/-- A Jellyfin playlist as returned by `JellyfinClient.get_playlists`,
with the items that `get_playlist_items` returns for its id. -/
structure JFPlaylistA where
  name : String
  items : List JFItem
deriving DecidableEq, Repr

/-- One run's external world for `migrate_playlist.py`: the Jellyfin
playlist listing, the Plex library sections, the `dry_run` flag, and whether
`Playlist.create` succeeds (`createOk = false` models the
`except Exception` branch that returns `False`). -/
structure ConfigA where
  requestedName : String
  playlists : List JFPlaylistA
  sections : List SectionA
  dryRun : Bool
  createOk : Bool
deriving DecidableEq, Repr

/-- `JellyfinClient.find_playlist_by_name`: first playlist whose
`Name.lower()` equals the requested name lowercased. -/
def findPlaylistByNameA (name : String) (pls : List JFPlaylistA) : Option JFPlaylistA :=
  pls.find? (fun p => pyLower p.name == pyLower name)

/-- Observable result of one `PlaylistMigrator.migrate_playlist` run:
the returned boolean, the matched Plex items in order, the
`missing_items` report, and every `create_playlist` call issued
(name, items). -/
structure RunResultA where
  outcome : Bool
  plexItems : List PlexItemA
  missing : List MissingEntry
  createCalls : List (String × List PlexItemA)
deriving DecidableEq, Repr

/-- `PlaylistMigrator.migrate_playlist`: find the playlist (failure if
absent), resolve every item in order, fail without creating if nothing
matched, return success without creating in dry-run mode, otherwise issue
one `create_playlist(jellyfin_playlist['Name'], plex_items)` call whose
success decides the returned boolean. -/
def runA (cfg : ConfigA) : RunResultA :=
  match findPlaylistByNameA cfg.requestedName cfg.playlists with
  | none => ⟨false, [], [], []⟩
  | some pl =>
    let r := migrateLoopA cfg.sections pl.items
    if r.1.isEmpty then ⟨false, r.1, r.2, []⟩
    else if cfg.dryRun then ⟨true, r.1, r.2, []⟩
    else ⟨cfg.createOk, r.1, r.2, [(pl.name, r.1)]⟩

/-- The items of the playlist a run of `migrate_playlist.py` operates on
(empty when the requested playlist is not found). -/
def itemsOfA (cfg : ConfigA) : List JFItem :=
  match findPlaylistByNameA cfg.requestedName cfg.playlists with
  | none => []
  | some pl => pl.items

/-! ### Embedding B: `src/playlist_migrator.py` -/

/-- One Plex library for `playlist_migrator.py`'s
`PlexClient.find_media_by_path`.  `err = true` models
`library.search(filepath=file_path)` raising, which the bare `except:`
skips with `continue`.  The search itself is performed by the external
`plexapi` library; per the design, `searchByPath` returns the destination
items indexed under exactly that path, so the library's index is modelled
as a list of (indexed path, item handle) pairs. -/
structure LibraryB where
  err : Bool
  index : List (String × String)
deriving DecidableEq, Repr

/-- `library.search(filepath=fp)`: the result list of the external search,
exact path equality over the library's index. -/
def searchResultsB (lib : LibraryB) (fp : String) : List String :=
  lib.index.filterMap (fun e => if e.1 == fp then some e.2 else none)

/-- Trace of one `PlexClient.find_media_by_path` call in
`playlist_migrator.py`: the returned item handle, the libraries queried (by
position), and the messages printed while scanning.  The per-library
`except:` clause is bare — a raising library is skipped with `continue` and
nothing is printed, so the loop emits no message in any branch.  (The outer
`except Exception` around `self.server.library.sections()` is outside the
per-library loop and not part of this trace.) -/
structure SearchTraceB where
  result : Option String
  queried : List Nat
  printed : List String
deriving DecidableEq, Repr

/-- `PlexClient.find_media_by_path` of `playlist_migrator.py`.  A raising
library is silently skipped; an empty result list is falsy (`if results:`)
so the scan continues; the first non-empty result wins and `results[0]` is
returned. -/
def findMediaByPathB : List LibraryB → String → SearchTraceB
  | [], _ => ⟨none, [], []⟩
  | l :: rest, fp =>
    let r := findMediaByPathB rest fp
    if l.err then ⟨r.result, 0 :: r.queried.map (· + 1), r.printed⟩
    else
      match searchResultsB l fp with
      | [] => ⟨r.result, 0 :: r.queried.map (· + 1), r.printed⟩
      | x :: _ => ⟨some x, [0], []⟩

/-- The outcome of one iteration of the per-item loop of
`playlist_migrator.py`'s `migrate_playlist`.  The three constructors are the
three print branches of the source: `No file path found for item: {name}`,
`✓ Found: {name}`, and `✗ Not found in Plex: {name} (path: {path})`. -/
inductive BOutcome where
  | matched (key : String)
  | noPath (name : String)
  | notFound (name : String) (path : String)
deriving DecidableEq, Repr

/-- File-path extraction in `playlist_migrator.py`:
`item["MediaSources"][0].get("Path")` guarded by
`"MediaSources" in item and item["MediaSources"]`. -/
def extractPathB (it : JFItem) : Option String :=
  match it.mediaSources with
  | [] => none
  | ms :: _ => ms

/-- One iteration of the per-item loop of `playlist_migrator.py`,
instrumented with the libraries queried for this item.  An item whose
extracted path is falsy joins `not_found_items` without any Plex query. -/
def processItemB (libs : List LibraryB) (it : JFItem) : BOutcome × List Nat :=
  match pyTruthy (extractPathB it) with
  | none => (BOutcome.noPath (jfName it), [])
  | some p =>
    let r := findMediaByPathB libs p
    match r.result with
    | some x => (BOutcome.matched x, r.queried)
    | none => (BOutcome.notFound (jfName it) p, r.queried)

/-- The accumulation loop of `playlist_migrator.py`: `plex_items` collects
the matched handles in order; `not_found_items` collects the bare item name
for both unmatched branches, in order. -/
def migrateLoopB (libs : List LibraryB) : List JFItem → List String × List String
  | [] => ([], [])
  | it :: rest =>
    let r := migrateLoopB libs rest
    match (processItemB libs it).1 with
    | BOutcome.matched x => (x :: r.1, r.2)
    | BOutcome.noPath n => (r.1, n :: r.2)
    | BOutcome.notFound n _ => (r.1, n :: r.2)

/-- A Jellyfin playlist in the `search_playlists` response, with the items
`get_playlist_items` returns for its id. -/
structure JFPlaylistB where
  name : String
  items : List JFItem
deriving DecidableEq, Repr

/-- Target-playlist selection of `playlist_migrator.py` (run on the search
response once it is known non-empty; `none` is the earlier
`if not playlists: return False`).  The boolean records whether the
`Exact match not found, using playlist: …` fallback branch ran — the first
result is used, and that branch always prints. -/
def selectTargetB (req : String) (pls : List JFPlaylistB) : Option (JFPlaylistB × Bool) :=
  match pls.find? (fun p => pyLower p.name == pyLower req) with
  | some p => some (p, false)
  | none =>
    match pls with
    | [] => none
    | p0 :: _ => some (p0, true)

/-- One run's external world for `playlist_migrator.py`: the
`search_playlists(playlist_name)` response, the Plex libraries, and whether
`server.createPlaylist` succeeds. -/
structure ConfigB where
  requestedName : String
  searchResults : List JFPlaylistB
  libs : List LibraryB
  createOk : Bool
deriving DecidableEq, Repr

/-- Observable result of one `playlist_migrator.py` run.  `fallbackLogged`
records whether the `Exact match not found` message was printed. -/
structure RunResultB where
  outcome : Bool
  plexItems : List String
  notFound : List String
  createCalls : List (String × List String)
  fallbackLogged : Bool
deriving DecidableEq, Repr

/-- `migrate_playlist` of `playlist_migrator.py`: fail on an empty search
response, select the target (case-insensitive exact, else logged
first-result fallback), fail on an empty item list, resolve every item in
order, fail without creating when nothing matched, and otherwise create the
playlist under `f"{target_playlist['Name']} (from Jellyfin)"`. -/
def runB (cfg : ConfigB) : RunResultB :=
  match selectTargetB cfg.requestedName cfg.searchResults with
  | none => ⟨false, [], [], [], false⟩
  | some (tgt, fb) =>
    if tgt.items.isEmpty then ⟨false, [], [], [], fb⟩
    else
      let r := migrateLoopB cfg.libs tgt.items
      if r.1.isEmpty then ⟨false, r.1, r.2, [], fb⟩
      else ⟨cfg.createOk, r.1, r.2, [(tgt.name ++ " (from Jellyfin)", r.1)], fb⟩

/-! ### Embedding C: `src/migrate_playlist/cli.py` -/

/-- One Plex library section for `cli.py`'s `find_plex_item`.  `err = true`
models `section.search(filename=path)` raising, skipped by
`except Exception: continue`.  As in embedding B, the external search is
modelled as exact path lookup over the section's index. -/
structure SectionC where
  err : Bool
  index : List (String × String)
deriving DecidableEq, Repr

/-- `section.search(filename=path)`: result list of the external search. -/
def searchResultsC (s : SectionC) (fp : String) : List String :=
  s.index.filterMap (fun e => if e.1 == fp then some e.2 else none)

/-- Trace of one `find_plex_item` call in `cli.py`: result, sections queried
(by position), and messages printed (the `except Exception: continue` clause
prints nothing, so no branch emits a message). -/
structure SearchTraceC where
  result : Option String
  queried : List Nat
  printed : List String
deriving DecidableEq, Repr

/-- `find_plex_item` of `cli.py`: first non-empty result wins, `results[0]`
is returned, raising sections are silently skipped. -/
def findPlexItemC : List SectionC → String → SearchTraceC
  | [], _ => ⟨none, [], []⟩
  | s :: rest, fp =>
    let r := findPlexItemC rest fp
    if s.err then ⟨r.result, 0 :: r.queried.map (· + 1), r.printed⟩
    else
      match searchResultsC s fp with
      | [] => ⟨r.result, 0 :: r.queried.map (· + 1), r.printed⟩
      | x :: _ => ⟨some x, [0], []⟩

/-- A Jellyfin playlist item as `cli.py` sees it: `item.get("Path")` is a
top-level field (requested via `Fields=Path`). -/
structure JFItemC where
  name : Option String
  path : Option String
deriving DecidableEq, Repr

/-- Outcome of one iteration of `cli.py`'s per-item loop.  A falsy path hits
the bare `continue`: nothing is recorded anywhere for that item.  An
unmatched path produces the stderr warning. -/
inductive COutcome where
  | matched (key : String)
  | noPath
  | notFound (path : String)
deriving DecidableEq, Repr

/-- One iteration of `cli.py`'s per-item loop, instrumented with the
sections queried for this item. -/
def processItemC (sections : List SectionC) (it : JFItemC) : COutcome × List Nat :=
  match pyTruthy it.path with
  | none => (COutcome.noPath, [])
  | some p =>
    let r := findPlexItemC sections p
    match r.result with
    | some x => (COutcome.matched x, r.queried)
    | none => (COutcome.notFound p, r.queried)

/-- The accumulation loop of `cli.py`: matched handles in order, and the
`Warning: could not find '{path}' in Plex` messages in order.  Items without
a path contribute to neither list. -/
def migrateLoopC (sections : List SectionC) : List JFItemC → List String × List String
  | [] => ([], [])
  | it :: rest =>
    let r := migrateLoopC sections rest
    match (processItemC sections it).1 with
    | COutcome.matched x => (x :: r.1, r.2)
    | COutcome.noPath => r
    | COutcome.notFound p =>
      (r.1, ("Warning: could not find '" ++ p ++ "' in Plex") :: r.2)

/-- A Jellyfin playlist in `cli.py`'s listing, with its items. -/
structure JFPlaylistC where
  name : String
  items : List JFItemC
deriving DecidableEq, Repr

/-- One run's external world for `cli.py`. -/
structure ConfigC where
  requestedName : String
  playlists : List JFPlaylistC
  sections : List SectionC
deriving DecidableEq, Repr

/-- Observable result of one `cli.py` run: whether it completed (a
`SystemExit` branch is `outcome = false`), the matched handles, the warning
lines, and the `createPlaylist` calls. -/
structure RunResultC where
  outcome : Bool
  plexItems : List String
  warnings : List String
  createCalls : List (String × List String)
deriving DecidableEq, Repr

/-- `migrate_playlist` of `cli.py`: pick the playlist whose `Name` equals
the requested name case-sensitively (`p.get("Name") == name`), raising
`SystemExit` if absent; resolve every item in order, silently skipping
path-less items; raise `SystemExit` when nothing matched; otherwise call
`plex.createPlaylist(name, items=plex_items)` with the requested name.
`createPlaylist` errors are not caught by the source and would propagate
out of the function; they are outside the modelled behaviour. -/
def runC (cfg : ConfigC) : RunResultC :=
  match cfg.playlists.find? (fun p => p.name == cfg.requestedName) with
  | none => ⟨false, [], [], []⟩
  | some pl =>
    let r := migrateLoopC cfg.sections pl.items
    if r.1.isEmpty then ⟨false, r.1, r.2, []⟩
    else ⟨true, r.1, r.2, [(cfg.requestedName, r.1)]⟩

/-- The items of the playlist a `cli.py` run operates on. -/
def itemsOfC (cfg : ConfigC) : List JFItemC :=
  match cfg.playlists.find? (fun p => p.name == cfg.requestedName) with
  | none => []
  | some pl => pl.items

/-! ### Per-item projections and loop characterisations -/

/-- The matched handle a `playlist_migrator.py` item resolves to, if any. -/
def resolveItemB (libs : List LibraryB) (it : JFItem) : Option String :=
  match (processItemB libs it).1 with
  | BOutcome.matched x => some x
  | _ => none

/-- The `not_found_items` entry (bare name) a `playlist_migrator.py` item
produces, if any. -/
def notFoundNameB (libs : List LibraryB) (it : JFItem) : Option String :=
  match (processItemB libs it).1 with
  | BOutcome.matched _ => none
  | BOutcome.noPath n => some n
  | BOutcome.notFound n _ => some n

/-- The matched handle a `cli.py` item resolves to, if any. -/
def resolveItemC (sections : List SectionC) (it : JFItemC) : Option String :=
  match (processItemC sections it).1 with
  | COutcome.matched x => some x
  | _ => none

/-- The warning line a `cli.py` item produces, if any.  Note that an item
without a path produces neither a match nor a warning. -/
def warnOfC (sections : List SectionC) (it : JFItemC) : Option String :=
  match (processItemC sections it).1 with
  | COutcome.notFound p => some ("Warning: could not find '" ++ p ++ "' in Plex")
  | _ => none

theorem migrateLoopA_eq (sections : List SectionA) (items : List JFItem) :
    migrateLoopA sections items =
      (items.filterMap (resolveItemA sections), items.filterMap (missingOfA sections)) := by
  induction items with
  | nil => rfl
  | cons it rest ih =>
    simp only [migrateLoopA, ih, List.filterMap_cons, resolveItemA, missingOfA]
    cases (processItemA sections it).1 <;> simp

theorem migrateLoopB_eq (libs : List LibraryB) (items : List JFItem) :
    migrateLoopB libs items =
      (items.filterMap (resolveItemB libs), items.filterMap (notFoundNameB libs)) := by
  induction items with
  | nil => rfl
  | cons it rest ih =>
    simp only [migrateLoopB, ih, List.filterMap_cons, resolveItemB, notFoundNameB]
    cases (processItemB libs it).1 <;> simp

theorem migrateLoopC_eq (sections : List SectionC) (items : List JFItemC) :
    migrateLoopC sections items =
      (items.filterMap (resolveItemC sections), items.filterMap (warnOfC sections)) := by
  induction items with
  | nil => rfl
  | cons it rest ih =>
    simp only [migrateLoopC, ih, List.filterMap_cons, resolveItemC, warnOfC]
    cases (processItemC sections it).1 <;> simp

theorem filterMap_filter_isSome {α β : Type} (f : α → Option β) (l : List α) :
    (l.filter (fun a => (f a).isSome)).filterMap f = l.filterMap f := by
  induction l with
  | nil => rfl
  | cons a l ih =>
    cases h : f a <;>
      simp [List.filter_cons, List.filterMap_cons, h, ih]

/-- The items of the playlist a `playlist_migrator.py` run operates on
(those of the selected target playlist). -/
def itemsOfB (cfg : ConfigB) : List JFItem :=
  match selectTargetB cfg.requestedName cfg.searchResults with
  | none => []
  | some tf => tf.1.items

theorem runA_plexItems_eq (a : ConfigA) :
    (runA a).plexItems = (itemsOfA a).filterMap (resolveItemA a.sections) := by
  unfold runA itemsOfA
  cases hf : findPlaylistByNameA a.requestedName a.playlists with
  | none => simp
  | some pl =>
    simp only [migrateLoopA_eq]
    split
    · rfl
    · split <;> rfl

theorem runA_missing_eq (a : ConfigA) :
    (runA a).missing = (itemsOfA a).filterMap (missingOfA a.sections) := by
  unfold runA itemsOfA
  cases hf : findPlaylistByNameA a.requestedName a.playlists with
  | none => simp
  | some pl =>
    simp only [migrateLoopA_eq]
    split
    · rfl
    · split <;> rfl

theorem runA_createCalls_items (a : ConfigA) :
    ∀ call ∈ (runA a).createCalls, call.2 = (runA a).plexItems := by
  unfold runA
  cases hf : findPlaylistByNameA a.requestedName a.playlists with
  | none => simp [hf]
  | some pl =>
    simp only [hf]
    split
    · simp
    · split
      · simp
      · intro call hc
        simp only [List.mem_singleton] at hc
        rw [hc]

theorem runB_plexItems_eq (b : ConfigB) :
    (runB b).plexItems = (itemsOfB b).filterMap (resolveItemB b.libs) := by
  unfold runB itemsOfB
  cases hs : selectTargetB b.requestedName b.searchResults with
  | none => simp
  | some tf =>
    obtain ⟨tgt, fb⟩ := tf
    dsimp only
    split
    · rename_i hi
      rw [List.isEmpty_iff] at hi
      simp [hi]
    · simp only [migrateLoopB_eq]
      split <;> rfl

theorem runB_notFound_eq (b : ConfigB) :
    (runB b).notFound = (itemsOfB b).filterMap (notFoundNameB b.libs) := by
  unfold runB itemsOfB
  cases hs : selectTargetB b.requestedName b.searchResults with
  | none => simp
  | some tf =>
    obtain ⟨tgt, fb⟩ := tf
    dsimp only
    split
    · rename_i hi
      rw [List.isEmpty_iff] at hi
      simp [hi]
    · simp only [migrateLoopB_eq]
      split <;> rfl

theorem runB_createCalls_items (b : ConfigB) :
    ∀ call ∈ (runB b).createCalls, call.2 = (runB b).plexItems := by
  unfold runB
  cases hs : selectTargetB b.requestedName b.searchResults with
  | none => simp [hs]
  | some tf =>
    obtain ⟨tgt, fb⟩ := tf
    simp only [hs]
    split
    · simp
    · split
      · simp
      · intro call hc
        simp only [List.mem_singleton] at hc
        rw [hc]

theorem runC_plexItems_eq (c : ConfigC) :
    (runC c).plexItems = (itemsOfC c).filterMap (resolveItemC c.sections) := by
  unfold runC itemsOfC
  cases hf : c.playlists.find? (fun p => p.name == c.requestedName) with
  | none => simp
  | some pl =>
    simp only [migrateLoopC_eq]
    split <;> rfl

theorem runC_warnings_eq (c : ConfigC) :
    (runC c).warnings = (itemsOfC c).filterMap (warnOfC c.sections) := by
  unfold runC itemsOfC
  cases hf : c.playlists.find? (fun p => p.name == c.requestedName) with
  | none => simp
  | some pl =>
    simp only [migrateLoopC_eq]
    split <;> rfl

theorem runC_createCalls_items (c : ConfigC) :
    ∀ call ∈ (runC c).createCalls, call.2 = (runC c).plexItems := by
  unfold runC
  cases hf : c.playlists.find? (fun p => p.name == c.requestedName) with
  | none => simp [hf]
  | some pl =>
    simp only [hf]
    split
    · simp
    · intro call hc
      simp only [List.mem_singleton] at hc
      rw [hc]

theorem exists_sublist_of_filterMap {α β : Type} (f : α → Option β) (l : List α) :
    ∃ srcs : List α, srcs.Sublist l ∧ (∀ x ∈ srcs, (f x).isSome = true)
      ∧ l.filterMap f = srcs.filterMap f :=
  ⟨l.filter (fun x => (f x).isSome), List.filter_sublist l,
    fun _ hx => (List.mem_filter.mp hx).2,
    (filterMap_filter_isSome f l).symm⟩

/-! ### Claim theorems -/

/-- C1: for every source item whose file path is absent, each of the three
per-item resolution loops records the item as unmatched for lack of a file
path immediately (in `migrate_playlist.py` with the bare-name
`missing_items` entry, in `playlist_migrator.py` with the
`No file path found` branch, in `cli.py` with the silent skip branch) and
issues no destination library query at all. -/
theorem noFilePath_unmatched_without_query
    (sectionsA : List SectionA) (libsB : List LibraryB) (sectionsC : List SectionC)
    (it : JFItem) (itc : JFItemC)
    (hA : extractPathA it = none) (hB : extractPathB it = none)
    (hC : itc.path = none) :
    processItemA sectionsA it = (Sum.inr (MissingEntry.noFilePath (jfName it)), [])
    ∧ processItemB libsB it = (BOutcome.noPath (jfName it), [])
    ∧ processItemC sectionsC itc = (COutcome.noPath, []) := by
  refine ⟨?_, ?_, ?_⟩
  · simp [processItemA, hA, pyTruthy]
  · simp [processItemB, hB, pyTruthy]
  · simp [processItemC, hC, pyTruthy]

/-- Witness for C1 at a concrete item with no media source, against
non-empty destination libraries: the entry records the missing path and the
query list is empty. -/
theorem noFilePath_unmatched_without_query_witness :
    extractPathA ⟨some "A", []⟩ = none
    ∧ extractPathB ⟨some "A", []⟩ = none
    ∧ (JFItemC.mk (some "A") none).path = none
    ∧ processItemA [⟨"Music", false, []⟩] ⟨some "A", []⟩
        = (Sum.inr (MissingEntry.noFilePath "A"), [])
    ∧ processItemB [⟨false, [("/m/a.mp3", "X")]⟩] ⟨some "A", []⟩
        = (BOutcome.noPath "A", [])
    ∧ processItemC [⟨false, [("/m/a.mp3", "X")]⟩] ⟨some "A", none⟩
        = (COutcome.noPath, []) := by
  have h := noFilePath_unmatched_without_query
    [⟨"Music", false, []⟩] [⟨false, [("/m/a.mp3", "X")]⟩] [⟨false, [("/m/a.mp3", "X")]⟩]
    ⟨some "A", []⟩ ⟨some "A", none⟩ rfl rfl rfl
  exact ⟨rfl, rfl, rfl, h.1, h.2.1, h.2.2⟩

/-- C2: in each of the three implementations, a run in which no source item
matched issues no playlist-creation call and returns failure. -/
theorem empty_match_set_gate (a : ConfigA) (b : ConfigB) (c : ConfigC) :
    ((runA a).plexItems = [] → (runA a).createCalls = [] ∧ (runA a).outcome = false)
    ∧ ((runB b).plexItems = [] → (runB b).createCalls = [] ∧ (runB b).outcome = false)
    ∧ ((runC c).plexItems = [] → (runC c).createCalls = [] ∧ (runC c).outcome = false) := by
  refine ⟨?_, ?_, ?_⟩
  · intro h
    unfold runA at h ⊢
    cases hf : findPlaylistByNameA a.requestedName a.playlists with
    | none => simp [hf]
    | some pl =>
      simp only [hf] at h ⊢
      by_cases he : (migrateLoopA a.sections pl.items).1.isEmpty
      · simp [he]
      · by_cases hd : a.dryRun
        · simp only [he, hd] at h
          simp at h
          exact absurd (by simp [h]) he
        · simp only [he, hd] at h
          simp at h
          exact absurd (by simp [h]) he
  · intro h
    unfold runB at h ⊢
    cases hs : selectTargetB b.requestedName b.searchResults with
    | none => simp [hs]
    | some tf =>
      obtain ⟨tgt, fb⟩ := tf
      simp only [hs] at h ⊢
      by_cases hi : tgt.items.isEmpty
      · simp [hi]
      · by_cases he : (migrateLoopB b.libs tgt.items).1.isEmpty
        · simp [hi, he]
        · simp only [hi, he] at h
          simp at h
          exact absurd (by simp [h]) he
  · intro h
    unfold runC at h ⊢
    cases hf : c.playlists.find? (fun p => p.name == c.requestedName) with
    | none => simp [hf]
    | some pl =>
      simp only [hf] at h ⊢
      by_cases he : (migrateLoopC c.sections pl.items).1.isEmpty
      · simp [he]
      · simp only [he] at h
        simp at h
        exact absurd (by simp [h]) he

/-- Witness for C2 at concrete runs whose single item's path is indexed
nowhere in the destination: no creation call, failure outcome. -/
theorem empty_match_set_gate_witness :
    (runA ⟨"P", [⟨"P", [⟨some "A", [some "/x"]⟩]⟩], [], false, true⟩).plexItems = []
    ∧ ((runA ⟨"P", [⟨"P", [⟨some "A", [some "/x"]⟩]⟩], [], false, true⟩).createCalls = []
        ∧ (runA ⟨"P", [⟨"P", [⟨some "A", [some "/x"]⟩]⟩], [], false, true⟩).outcome = false)
    ∧ (runB ⟨"P", [⟨"P", [⟨some "A", [some "/x"]⟩]⟩], [], true⟩).plexItems = []
    ∧ ((runB ⟨"P", [⟨"P", [⟨some "A", [some "/x"]⟩]⟩], [], true⟩).createCalls = []
        ∧ (runB ⟨"P", [⟨"P", [⟨some "A", [some "/x"]⟩]⟩], [], true⟩).outcome = false)
    ∧ (runC ⟨"P", [⟨"P", [⟨some "A", some "/x"⟩]⟩], []⟩).plexItems = []
    ∧ ((runC ⟨"P", [⟨"P", [⟨some "A", some "/x"⟩]⟩], []⟩).createCalls = []
        ∧ (runC ⟨"P", [⟨"P", [⟨some "A", some "/x"⟩]⟩], []⟩).outcome = false) := by
  have h := empty_match_set_gate
    ⟨"P", [⟨"P", [⟨some "A", [some "/x"]⟩]⟩], [], false, true⟩
    ⟨"P", [⟨"P", [⟨some "A", [some "/x"]⟩]⟩], [], true⟩
    ⟨"P", [⟨"P", [⟨some "A", some "/x"⟩]⟩], []⟩
  exact ⟨rfl, h.1 rfl, rfl, h.2.1 rfl, rfl, h.2.2 rfl⟩

/-- C3: in each of the three implementations, the ordered matched
destination list — and in particular the item list passed to every
playlist-creation call — is exactly the in-order `filterMap` of the
per-item resolver over the source playlist's items, and it therefore arises
from a subsequence (`List.Sublist`) of the source item order: unmatched
items are skipped, and the relative order of matched items equals their
relative order in the source playlist. -/
theorem matched_order_is_subsequence (a : ConfigA) (b : ConfigB) (c : ConfigC) :
    ((runA a).plexItems = (itemsOfA a).filterMap (resolveItemA a.sections)
      ∧ (∀ call ∈ (runA a).createCalls,
          call.2 = (itemsOfA a).filterMap (resolveItemA a.sections))
      ∧ ∃ srcs : List JFItem, srcs.Sublist (itemsOfA a)
          ∧ (∀ it ∈ srcs, (resolveItemA a.sections it).isSome = true)
          ∧ (runA a).plexItems = srcs.filterMap (resolveItemA a.sections))
    ∧ ((runB b).plexItems = (itemsOfB b).filterMap (resolveItemB b.libs)
      ∧ (∀ call ∈ (runB b).createCalls,
          call.2 = (itemsOfB b).filterMap (resolveItemB b.libs))
      ∧ ∃ srcs : List JFItem, srcs.Sublist (itemsOfB b)
          ∧ (∀ it ∈ srcs, (resolveItemB b.libs it).isSome = true)
          ∧ (runB b).plexItems = srcs.filterMap (resolveItemB b.libs))
    ∧ ((runC c).plexItems = (itemsOfC c).filterMap (resolveItemC c.sections)
      ∧ (∀ call ∈ (runC c).createCalls,
          call.2 = (itemsOfC c).filterMap (resolveItemC c.sections))
      ∧ ∃ srcs : List JFItemC, srcs.Sublist (itemsOfC c)
          ∧ (∀ it ∈ srcs, (resolveItemC c.sections it).isSome = true)
          ∧ (runC c).plexItems = srcs.filterMap (resolveItemC c.sections)) := by
  refine ⟨⟨runA_plexItems_eq a, ?_, ?_⟩, ⟨runB_plexItems_eq b, ?_, ?_⟩,
    ⟨runC_plexItems_eq c, ?_, ?_⟩⟩
  · intro call hc
    rw [runA_createCalls_items a call hc, runA_plexItems_eq a]
  · obtain ⟨srcs, h1, h2, h3⟩ :=
      exists_sublist_of_filterMap (resolveItemA a.sections) (itemsOfA a)
    exact ⟨srcs, h1, h2, by rw [runA_plexItems_eq a, h3]⟩
  · intro call hc
    rw [runB_createCalls_items b call hc, runB_plexItems_eq b]
  · obtain ⟨srcs, h1, h2, h3⟩ :=
      exists_sublist_of_filterMap (resolveItemB b.libs) (itemsOfB b)
    exact ⟨srcs, h1, h2, by rw [runB_plexItems_eq b, h3]⟩
  · intro call hc
    rw [runC_createCalls_items c call hc, runC_plexItems_eq c]
  · obtain ⟨srcs, h1, h2, h3⟩ :=
      exists_sublist_of_filterMap (resolveItemC c.sections) (itemsOfC c)
    exact ⟨srcs, h1, h2, by rw [runC_plexItems_eq c, h3]⟩

/-- Concrete three-item playlist for the C3 witness (first and third items
match, the middle one lacks a file path) against `migrate_playlist.py`. -/
def cfgA3 : ConfigA :=
  ⟨"P", [⟨"P", [⟨some "A", [some "/a"]⟩, ⟨some "B", []⟩, ⟨some "C", [some "/c"]⟩]⟩],
    [⟨"S", false, [⟨"XA", some [["/a"]]⟩, ⟨"XC", some [["/c"]]⟩]⟩], false, true⟩

/-- The same scenario against `playlist_migrator.py`. -/
def cfgB3 : ConfigB :=
  ⟨"P", [⟨"P", [⟨some "A", [some "/a"]⟩, ⟨some "B", []⟩, ⟨some "C", [some "/c"]⟩]⟩],
    [⟨false, [("/a", "XA"), ("/c", "XC")]⟩], true⟩

/-- The same scenario against `cli.py`. -/
def cfgC3 : ConfigC :=
  ⟨"P", [⟨"P", [⟨some "A", some "/a"⟩, ⟨some "B", none⟩, ⟨some "C", some "/c"⟩]⟩],
    [⟨false, [("/a", "XA"), ("/c", "XC")]⟩]⟩

/-- Witness for C3 on a concrete three-item playlist whose middle item is
unmatched: the creation calls receive exactly the two matched items in
source order. -/
theorem matched_order_is_subsequence_witness :
    (("P", [PlexItemA.mk "XA" (some [["/a"]]), PlexItemA.mk "XC" (some [["/c"]])])
        ∈ (runA cfgA3).createCalls)
    ∧ [PlexItemA.mk "XA" (some [["/a"]]), PlexItemA.mk "XC" (some [["/c"]])]
        = (itemsOfA cfgA3).filterMap (resolveItemA cfgA3.sections)
    ∧ (("P (from Jellyfin)", ["XA", "XC"]) ∈ (runB cfgB3).createCalls)
    ∧ ["XA", "XC"] = (itemsOfB cfgB3).filterMap (resolveItemB cfgB3.libs)
    ∧ (("P", ["XA", "XC"]) ∈ (runC cfgC3).createCalls)
    ∧ ["XA", "XC"] = (itemsOfC cfgC3).filterMap (resolveItemC cfgC3.sections) := by
  have h := matched_order_is_subsequence cfgA3 cfgB3 cfgC3
  refine ⟨by decide,
    h.1.2.1 ("P", [PlexItemA.mk "XA" (some [["/a"]]), PlexItemA.mk "XC" (some [["/c"]])])
      (by decide),
    by decide,
    h.2.1.2.1 ("P (from Jellyfin)", ["XA", "XC"]) (by decide),
    by decide,
    h.2.2.2.1 ("P", ["XA", "XC"]) (by decide)⟩

theorem findA_err_skip (pre post : List SectionA) (s : SectionA) (fp : String)
    (h : s.err = true) :
    (findMediaByPathA (pre ++ s :: post) fp).result
      = (findMediaByPathA (pre ++ post) fp).result := by
  induction pre with
  | nil => simp [findMediaByPathA, h]
  | cons t pre ih =>
    simp only [List.cons_append, findMediaByPathA]
    by_cases ht : t.err
    · simp [ht, ih]
    · cases hf : t.items.find? (fun it => itemHasPath it fp) <;> simp [ht, hf, ih]

theorem findA_err_logged (pre post : List SectionA) (s : SectionA) (fp : String)
    (h : s.err = true) (hpre : (findMediaByPathA pre fp).result = none) :
    ("Error searching section " ++ s.title)
      ∈ (findMediaByPathA (pre ++ s :: post) fp).warnings := by
  induction pre with
  | nil => simp [findMediaByPathA, h]
  | cons t pre ih =>
    simp only [findMediaByPathA] at hpre
    simp only [List.cons_append, findMediaByPathA]
    by_cases ht : t.err
    · simp only [ht, if_true] at hpre ⊢
      exact List.mem_cons_of_mem _ (ih hpre)
    · cases hf : t.items.find? (fun it => itemHasPath it fp) with
      | some x => simp [ht, hf] at hpre
      | none =>
        simp only [ht, if_false, hf] at hpre ⊢
        exact ih hpre

theorem findB_err_skip (pre post : List LibraryB) (l : LibraryB) (fp : String)
    (h : l.err = true) :
    (findMediaByPathB (pre ++ l :: post) fp).result
      = (findMediaByPathB (pre ++ post) fp).result := by
  induction pre with
  | nil => simp [findMediaByPathB, h]
  | cons t pre ih =>
    simp only [List.cons_append, findMediaByPathB]
    by_cases ht : t.err
    · simp [ht, ih]
    · cases hr : searchResultsB t fp <;> simp [ht, hr, ih]

theorem findB_printed_empty (libs : List LibraryB) (fp : String) :
    (findMediaByPathB libs fp).printed = [] := by
  induction libs with
  | nil => rfl
  | cons l rest ih =>
    simp only [findMediaByPathB]
    by_cases hl : l.err
    · simp [hl, ih]
    · cases hr : searchResultsB l fp <;> simp [hl, hr, ih]

theorem findC_err_skip (pre post : List SectionC) (s : SectionC) (fp : String)
    (h : s.err = true) :
    (findPlexItemC (pre ++ s :: post) fp).result
      = (findPlexItemC (pre ++ post) fp).result := by
  induction pre with
  | nil => simp [findPlexItemC, h]
  | cons t pre ih =>
    simp only [List.cons_append, findPlexItemC]
    by_cases ht : t.err
    · simp [ht, ih]
    · cases hr : searchResultsC t fp <;> simp [ht, hr, ih]

theorem findC_printed_empty (sections : List SectionC) (fp : String) :
    (findPlexItemC sections fp).printed = [] := by
  induction sections with
  | nil => rfl
  | cons s rest ih =>
    simp only [findPlexItemC]
    by_cases hs : s.err
    · simp [hs, ih]
    · cases hr : searchResultsC s fp <;> simp [hs, hr, ih]

/-- Counterexample to C4 as stated: in `playlist_migrator.py` and `cli.py`
the per-library error is swallowed by a bare `except … continue` — at this
concrete input the first library raises and the second still produces the
match (so the traversal indeed continues), but nothing whatsoever is
logged, refuting "the error is logged". -/
theorem library_error_logging_counterexample :
    (findMediaByPathB [⟨true, [("/x", "Y")]⟩, ⟨false, [("/x", "X")]⟩] "/x").result
        = some "X"
    ∧ (findMediaByPathB [⟨true, [("/x", "Y")]⟩, ⟨false, [("/x", "X")]⟩] "/x").printed
        = []
    ∧ (findPlexItemC [⟨true, [("/x", "Y")]⟩, ⟨false, [("/x", "X")]⟩] "/x").result
        = some "X"
    ∧ (findPlexItemC [⟨true, [("/x", "Y")]⟩, ⟨false, [("/x", "X")]⟩] "/x").printed
        = [] := by decide

/-- C4 amended: if the search in one destination library raises, resolution
does not abort — removing the erroring library leaves the result unchanged,
so a later library can still produce a match; `migrate_playlist.py`
additionally logs the error with a warning (whenever the traversal reaches
the erroring section), while `playlist_migrator.py` and `cli.py` continue
silently, printing nothing. -/
theorem library_error_tolerated (pre post : List SectionA) (s : SectionA) (fpA : String)
    (preB postB : List LibraryB) (lb : LibraryB) (fpB : String)
    (preC postC : List SectionC) (sc : SectionC) (fpC : String)
    (hA : s.err = true) (hpre : (findMediaByPathA pre fpA).result = none)
    (hB : lb.err = true) (hC : sc.err = true) :
    (findMediaByPathA (pre ++ s :: post) fpA).result
        = (findMediaByPathA (pre ++ post) fpA).result
    ∧ ("Error searching section " ++ s.title)
        ∈ (findMediaByPathA (pre ++ s :: post) fpA).warnings
    ∧ (findMediaByPathB (preB ++ lb :: postB) fpB).result
        = (findMediaByPathB (preB ++ postB) fpB).result
    ∧ (findMediaByPathB (preB ++ lb :: postB) fpB).printed = []
    ∧ (findPlexItemC (preC ++ sc :: postC) fpC).result
        = (findPlexItemC (preC ++ postC) fpC).result
    ∧ (findPlexItemC (preC ++ sc :: postC) fpC).printed = [] :=
  ⟨findA_err_skip pre post s fpA hA, findA_err_logged pre post s fpA hA hpre,
    findB_err_skip preB postB lb fpB hB, findB_printed_empty _ _,
    findC_err_skip preC postC sc fpC hC, findC_printed_empty _ _⟩

/-- Witness for the amended C4 at a concrete input: the first
section/library raises, the second holds the item, and the match is still
found. -/
theorem library_error_tolerated_witness :
    (SectionA.mk "S1" true [⟨"X", some [["/x"]]⟩]).err = true
    ∧ (findMediaByPathA [] "/x").result = none
    ∧ (findMediaByPathA [⟨"S1", true, [⟨"X", some [["/x"]]⟩]⟩,
        ⟨"S2", false, [⟨"X", some [["/x"]]⟩]⟩] "/x").result
        = some ⟨"X", some [["/x"]]⟩
    ∧ (findMediaByPathA [⟨"S1", true, [⟨"X", some [["/x"]]⟩]⟩,
        ⟨"S2", false, [⟨"X", some [["/x"]]⟩]⟩] "/x").result
        = (findMediaByPathA [⟨"S2", false, [⟨"X", some [["/x"]]⟩]⟩] "/x").result
    ∧ ("Error searching section S1"
        ∈ (findMediaByPathA [⟨"S1", true, [⟨"X", some [["/x"]]⟩]⟩,
            ⟨"S2", false, [⟨"X", some [["/x"]]⟩]⟩] "/x").warnings)
    ∧ (findMediaByPathB [⟨true, []⟩, ⟨false, [("/x", "X")]⟩] "/x").result = some "X"
    ∧ (findMediaByPathB [⟨true, []⟩, ⟨false, [("/x", "X")]⟩] "/x").result
        = (findMediaByPathB [⟨false, [("/x", "X")]⟩] "/x").result
    ∧ (findMediaByPathB [⟨true, []⟩, ⟨false, [("/x", "X")]⟩] "/x").printed = []
    ∧ (findPlexItemC [⟨true, []⟩, ⟨false, [("/x", "X")]⟩] "/x").result = some "X"
    ∧ (findPlexItemC [⟨true, []⟩, ⟨false, [("/x", "X")]⟩] "/x").result
        = (findPlexItemC [⟨false, [("/x", "X")]⟩] "/x").result
    ∧ (findPlexItemC [⟨true, []⟩, ⟨false, [("/x", "X")]⟩] "/x").printed = [] := by
  have h := library_error_tolerated
    [] [⟨"S2", false, [⟨"X", some [["/x"]]⟩]⟩] ⟨"S1", true, [⟨"X", some [["/x"]]⟩]⟩ "/x"
    [] [⟨false, [("/x", "X")]⟩] ⟨true, []⟩ "/x"
    [] [⟨false, [("/x", "X")]⟩] ⟨true, []⟩ "/x"
    rfl rfl rfl rfl
  exact ⟨rfl, rfl, by decide, h.1, h.2.1, by decide, h.2.2.1, h.2.2.2.1,
    by decide, h.2.2.2.2.1, h.2.2.2.2.2⟩

theorem findA_all_err (sections : List SectionA) (fp : String)
    (h : ∀ s ∈ sections, s.err = true) :
    (findMediaByPathA sections fp).result = none := by
  induction sections with
  | nil => rfl
  | cons s rest ih =>
    have hs := h s (List.mem_cons_self s rest)
    simp [findMediaByPathA, hs, ih (fun t ht => h t (List.mem_cons_of_mem s ht))]

theorem findB_all_err (libs : List LibraryB) (fp : String)
    (h : ∀ l ∈ libs, l.err = true) :
    (findMediaByPathB libs fp).result = none := by
  induction libs with
  | nil => rfl
  | cons l rest ih =>
    have hl := h l (List.mem_cons_self l rest)
    simp [findMediaByPathB, hl, ih (fun t ht => h t (List.mem_cons_of_mem l ht))]

theorem findC_all_err (sections : List SectionC) (fp : String)
    (h : ∀ s ∈ sections, s.err = true) :
    (findPlexItemC sections fp).result = none := by
  induction sections with
  | nil => rfl
  | cons s rest ih =>
    have hs := h s (List.mem_cons_self s rest)
    simp [findPlexItemC, hs, ih (fun t ht => h t (List.mem_cons_of_mem s ht))]

/-- Counterexample to C5 as stated: at these concrete inputs, a destination
in which every library's search raises produces exactly the same unmatched
outcome value as a destination that simply does not index the path — the
`name (path)` / not-found form.  No implementation has any outcome
distinguishable as a LookupError. -/
theorem lookup_error_reason_counterexample :
    (processItemA [⟨"S", true, [⟨"X", some [["/x"]]⟩]⟩] ⟨some "A", [some "/x"]⟩).1
      = (processItemA [⟨"S", false, []⟩] ⟨some "A", [some "/x"]⟩).1
    ∧ (processItemA [⟨"S", true, [⟨"X", some [["/x"]]⟩]⟩] ⟨some "A", [some "/x"]⟩).1
      = Sum.inr (MissingEntry.notFound "A" "/x")
    ∧ (processItemB [⟨true, [("/x", "X")]⟩] ⟨some "A", [some "/x"]⟩).1
      = (processItemB [⟨false, []⟩] ⟨some "A", [some "/x"]⟩).1
    ∧ (processItemB [⟨true, [("/x", "X")]⟩] ⟨some "A", [some "/x"]⟩).1
      = BOutcome.notFound "A" "/x"
    ∧ (processItemC [⟨true, [("/x", "X")]⟩] ⟨some "A", some "/x"⟩).1
      = (processItemC [⟨false, []⟩] ⟨some "A", some "/x"⟩).1
    ∧ (processItemC [⟨true, [("/x", "X")]⟩] ⟨some "A", some "/x"⟩).1
      = COutcome.notFound "/x" := by decide

/-- C5 amended: when every destination library's search raised an error,
each implementation records the item exactly as a not-found-in-destination
outcome (the `name (path)` entry in `migrate_playlist.py`); no LookupError
reason exists or is distinguishable. -/
theorem all_errors_reported_as_not_found
    (sections : List SectionA) (libs : List LibraryB) (secC : List SectionC)
    (it itB : JFItem) (itC : JFItemC) (fpA fpB fpC : String)
    (hallA : ∀ s ∈ sections, s.err = true)
    (hallB : ∀ l ∈ libs, l.err = true)
    (hallC : ∀ s ∈ secC, s.err = true)
    (hit : pyTruthy (extractPathA it) = some fpA)
    (hitB : pyTruthy (extractPathB itB) = some fpB)
    (hitC : pyTruthy itC.path = some fpC) :
    (processItemA sections it).1 = Sum.inr (MissingEntry.notFound (jfName it) fpA)
    ∧ (processItemB libs itB).1 = BOutcome.notFound (jfName itB) fpB
    ∧ (processItemC secC itC).1 = COutcome.notFound fpC := by
  refine ⟨?_, ?_, ?_⟩
  · simp [processItemA, hit, findA_all_err sections fpA hallA]
  · simp [processItemB, hitB, findB_all_err libs fpB hallB]
  · simp [processItemC, hitC, findC_all_err secC fpC hallC]

/-- Witness for the amended C5 at concrete all-error destinations whose
libraries even index the searched path: the result is the plain not-found
outcome. -/
theorem all_errors_reported_as_not_found_witness :
    (∀ s ∈ [SectionA.mk "S" true [⟨"X", some [["/x"]]⟩]], s.err = true)
    ∧ pyTruthy (extractPathA ⟨some "A", [some "/x"]⟩) = some "/x"
    ∧ (processItemA [⟨"S", true, [⟨"X", some [["/x"]]⟩]⟩] ⟨some "A", [some "/x"]⟩).1
        = Sum.inr (MissingEntry.notFound "A" "/x")
    ∧ (processItemB [⟨true, [("/x", "X")]⟩] ⟨some "A", [some "/x"]⟩).1
        = BOutcome.notFound "A" "/x"
    ∧ (processItemC [⟨true, [("/x", "X")]⟩] ⟨some "A", some "/x"⟩).1
        = COutcome.notFound "/x" := by
  have h := all_errors_reported_as_not_found
    [⟨"S", true, [⟨"X", some [["/x"]]⟩]⟩] [⟨true, [("/x", "X")]⟩]
    [⟨true, [("/x", "X")]⟩]
    ⟨some "A", [some "/x"]⟩ ⟨some "A", [some "/x"]⟩ ⟨some "A", some "/x"⟩
    "/x" "/x" "/x"
    (by decide) (by decide) (by decide) rfl rfl rfl
  exact ⟨by decide, rfl, h.1, h.2.1, h.2.2⟩

/-- C6: a dry-run of `migrate_playlist.py` (the only implementation with a
dry-run mode) never issues a playlist-creation call, and returns success
whenever at least one item matched. -/
theorem dry_run_never_creates (a : ConfigA) (h : a.dryRun = true) :
    (runA a).createCalls = [] ∧ ((runA a).plexItems ≠ [] → (runA a).outcome = true) := by
  unfold runA
  cases hf : findPlaylistByNameA a.requestedName a.playlists with
  | none => simp
  | some pl =>
    by_cases he : (migrateLoopA a.sections pl.items).1.isEmpty
    · refine ⟨by simp [he], ?_⟩
      intro hne
      simp only [he] at hne
      simp at hne
      exact absurd (List.isEmpty_iff.mp he) hne
    · simp [he, h]

/-- Witness for C6 at a concrete dry run with one matched item: no creation
call, success outcome. -/
theorem dry_run_never_creates_witness :
    (runA ⟨"P", [⟨"P", [⟨some "A", [some "/x"]⟩]⟩],
        [⟨"S", false, [⟨"X", some [["/x"]]⟩]⟩], true, true⟩).plexItems ≠ []
    ∧ (runA ⟨"P", [⟨"P", [⟨some "A", [some "/x"]⟩]⟩],
        [⟨"S", false, [⟨"X", some [["/x"]]⟩]⟩], true, true⟩).createCalls = []
    ∧ (runA ⟨"P", [⟨"P", [⟨some "A", [some "/x"]⟩]⟩],
        [⟨"S", false, [⟨"X", some [["/x"]]⟩]⟩], true, true⟩).outcome = true := by
  have h := dry_run_never_creates
    ⟨"P", [⟨"P", [⟨some "A", [some "/x"]⟩]⟩],
      [⟨"S", false, [⟨"X", some [["/x"]]⟩]⟩], true, true⟩ rfl
  exact ⟨by decide, h.1, h.2 (by decide)⟩

/-- C7: playlist lookup is sound for case-insensitive equality in all three
implementations, and in `playlist_migrator.py` — the search-based lookup —
a selection without a case-insensitive exact match falls back
deterministically to the first search result with the fallback branch
always reported via the `fallbackLogged` flag of the run (the
`Exact match not found, using playlist: …` print).  `cli.py`'s match is
case-sensitive string equality, which implies the case-insensitive
property of the selected playlist. -/
theorem playlist_lookup_selection
    (req : String) (pls : List JFPlaylistB) (tgt : JFPlaylistB) (fb : Bool)
    (nameA : String) (plsA : List JFPlaylistA) (cfgB : ConfigB) (cfgC : ConfigC) :
    (selectTargetB req pls = some (tgt, fb) →
      (fb = false → pyLower tgt.name = pyLower req)
      ∧ (fb = true →
          (∀ p ∈ pls, (pyLower p.name == pyLower req) = false) ∧ pls.head? = some tgt))
    ∧ (∀ tgt2 : JFPlaylistB,
        selectTargetB cfgB.requestedName cfgB.searchResults = some (tgt2, true) →
          (runB cfgB).fallbackLogged = true)
    ∧ (∀ pl : JFPlaylistA, findPlaylistByNameA nameA plsA = some pl →
        pyLower pl.name = pyLower nameA)
    ∧ (∀ pl : JFPlaylistC,
        cfgC.playlists.find? (fun p => p.name == cfgC.requestedName) = some pl →
          pl.name = cfgC.requestedName) := by
  refine ⟨?_, ?_, ?_, ?_⟩
  · intro hsel
    unfold selectTargetB at hsel
    cases hfind : pls.find? (fun p => pyLower p.name == pyLower req) with
    | some p =>
      simp only [hfind, Option.some.injEq, Prod.mk.injEq] at hsel
      obtain ⟨rfl, rfl⟩ := hsel
      refine ⟨fun _ => eq_of_beq (by simpa using List.find?_some hfind), fun hfb => ?_⟩
      simp at hfb
    | none =>
      cases pls with
      | nil => simp [hfind] at hsel
      | cons p0 rest =>
        simp only [hfind, Option.some.injEq, Prod.mk.injEq] at hsel
        obtain ⟨rfl, rfl⟩ := hsel
        refine ⟨fun hfb => by simp at hfb, fun _ => ⟨?_, rfl⟩⟩
        intro p hp
        simpa using List.find?_eq_none.mp hfind p hp
  · intro tgt2 hsel
    unfold runB
    simp only [hsel]
    split
    · rfl
    · split <;> rfl
  · intro pl hf
    unfold findPlaylistByNameA at hf
    exact eq_of_beq (by simpa using List.find?_some hf)
  · intro pl hf
    exact eq_of_beq (by simpa using List.find?_some hf)

/-- Witness for C7: a search response without a case-insensitive match
triggers the logged first-result fallback; a case-insensitively matching
playlist is selected in `migrate_playlist.py`; `cli.py` selects the
exact-named playlist. -/
theorem playlist_lookup_selection_witness :
    selectTargetB "PL" [⟨"Other", ([] : List JFItem)⟩] = some (⟨"Other", []⟩, true)
    ∧ ((∀ p ∈ [JFPlaylistB.mk "Other" []], (pyLower p.name == pyLower "PL") = false)
        ∧ [JFPlaylistB.mk "Other" []].head? = some ⟨"Other", []⟩)
    ∧ (runB ⟨"PL", [⟨"Other", []⟩], [], true⟩).fallbackLogged = true
    ∧ selectTargetB "pl" [⟨"PL", ([] : List JFItem)⟩] = some (⟨"PL", []⟩, false)
    ∧ pyLower (JFPlaylistB.mk "PL" []).name = pyLower "pl"
    ∧ pyLower (JFPlaylistA.mk "PL" []).name = pyLower "pl"
    ∧ (JFPlaylistC.mk "P" []).name = "P" := by
  have h := playlist_lookup_selection "PL" [⟨"Other", []⟩] ⟨"Other", []⟩ true
    "pl" [⟨"PL", []⟩] ⟨"PL", [⟨"Other", []⟩], [], true⟩ ⟨"P", [⟨"P", []⟩], []⟩
  have h2 := playlist_lookup_selection "pl" [⟨"PL", []⟩] ⟨"PL", []⟩ false
    "pl" [⟨"PL", []⟩] ⟨"PL", [⟨"Other", []⟩], [], true⟩ ⟨"P", [⟨"P", []⟩], []⟩
  refine ⟨by decide, (h.1 (by decide)).2 rfl, h.2.1 ⟨"Other", []⟩ (by decide),
    by decide, (h2.1 (by decide)).1 rfl, h.2.2.1 ⟨"PL", []⟩ (by decide),
    h.2.2.2 ⟨"P", []⟩ (by decide)⟩

/-- Concrete `cli.py` run for C8: two source items, the first without a file
path, the second matched. -/
def cfgC8 : ConfigC :=
  ⟨"P", [⟨"P", [⟨some "A", none⟩, ⟨some "B", some "/m/x.mp3"⟩]⟩],
    [⟨false, [("/m/x.mp3", "X")]⟩]⟩

/-- Counterexample to C8 as stated: in this `cli.py` run the playlist is
created with 1 of 2 items — item "A" is unmatched for lack of a file path —
yet the emitted report contains no entry at all for the unmatched item
(`warnings = []`, because the `if not path: continue` branch records
nothing), and the outcome is the same plain success as a fully matched run:
no implementation has a distinct PartialSuccess outcome. -/
theorem unmatched_report_counterexample :
    (itemsOfC cfgC8).length = 2
    ∧ resolveItemC cfgC8.sections ⟨some "A", none⟩ = none
    ∧ (runC cfgC8).plexItems = ["X"]
    ∧ (runC cfgC8).createCalls = [("P", ["X"])]
    ∧ (runC cfgC8).warnings = []
    ∧ (runC cfgC8).outcome = true := by decide

/-- C8 amended: `migrate_playlist.py` reports every unmatched item with a
reason-distinguishing `missing_items` entry and `playlist_migrator.py`
lists every unmatched item's name, but `cli.py` reports only unmatched
items that had a file path — items without one are skipped silently; and in
every implementation a run that issues a creation call reports the bare
create outcome (boolean success), identical whether or not items were
unmatched — there is no distinct PartialSuccess outcome. -/
theorem unmatched_report_amended (a : ConfigA) (b : ConfigB) (c : ConfigC) :
    (runA a).missing = (itemsOfA a).filterMap (missingOfA a.sections)
    ∧ ((runA a).createCalls ≠ [] → (runA a).outcome = a.createOk)
    ∧ (runB b).notFound = (itemsOfB b).filterMap (notFoundNameB b.libs)
    ∧ ((runB b).createCalls ≠ [] → (runB b).outcome = b.createOk)
    ∧ (runC c).warnings = (itemsOfC c).filterMap (warnOfC c.sections)
    ∧ ((runC c).createCalls ≠ [] → (runC c).outcome = true) := by
  refine ⟨runA_missing_eq a, ?_, runB_notFound_eq b, ?_, runC_warnings_eq c, ?_⟩
  · intro hcc
    unfold runA at hcc ⊢
    cases hf : findPlaylistByNameA a.requestedName a.playlists with
    | none => simp [hf] at hcc
    | some pl =>
      simp only [hf] at hcc ⊢
      by_cases he : (migrateLoopA a.sections pl.items).1.isEmpty
      · simp [he] at hcc
      · by_cases hd : a.dryRun
        · simp [he, hd] at hcc
        · simp [he, hd]
  · intro hcc
    unfold runB at hcc ⊢
    cases hs : selectTargetB b.requestedName b.searchResults with
    | none => simp [hs] at hcc
    | some tf =>
      obtain ⟨tgt, fb⟩ := tf
      simp only [hs] at hcc ⊢
      by_cases hi : tgt.items.isEmpty
      · simp [hi] at hcc
      · by_cases he : (migrateLoopB b.libs tgt.items).1.isEmpty
        · simp [hi, he] at hcc
        · simp [hi, he]
  · intro hcc
    unfold runC at hcc ⊢
    cases hf : c.playlists.find? (fun p => p.name == c.requestedName) with
    | none => simp [hf] at hcc
    | some pl =>
      simp only [hf] at hcc ⊢
      by_cases he : (migrateLoopC c.sections pl.items).1.isEmpty
      · simp [he] at hcc
      · simp [he]

/-- Witness for the amended C8 at concrete creating runs with one unmatched
item each: `migrate_playlist.py` lists the unmatched item with its no-path
entry, `playlist_migrator.py` lists its name, `cli.py` lists nothing for a
path-less item, and all three report plain success. -/
theorem unmatched_report_amended_witness :
    (runA cfgA3).createCalls ≠ []
    ∧ (runA cfgA3).missing = [MissingEntry.noFilePath "B"]
    ∧ (runA cfgA3).outcome = true
    ∧ (runB cfgB3).createCalls ≠ []
    ∧ (runB cfgB3).notFound = ["B"]
    ∧ (runB cfgB3).outcome = true
    ∧ (runC cfgC8).createCalls ≠ []
    ∧ (runC cfgC8).warnings = []
    ∧ (runC cfgC8).outcome = true := by
  have h := unmatched_report_amended cfgA3 cfgB3 cfgC8
  exact ⟨by decide, by decide, h.2.1 (by decide), by decide, by decide,
    h.2.2.2.1 (by decide), by decide, by decide, h.2.2.2.2.2 (by decide)⟩

theorem itemHasPath_iff (it : PlexItemA) (fp : String) :
    itemHasPath it fp = true ↔ ∃ ms, it.media = some ms ∧ ∃ parts ∈ ms, fp ∈ parts := by
  unfold itemHasPath
  cases hm : it.media with
  | none => simp
  | some ms =>
    constructor
    · intro h
      simp only [List.any_eq_true] at h
      obtain ⟨parts, hp, f, hf, hbeq⟩ := h
      exact ⟨ms, rfl, parts, hp, eq_of_beq hbeq ▸ hf⟩
    · rintro ⟨ms2, hms, parts, hp, hfp⟩
      simp only [Option.some.injEq] at hms
      subst hms
      simp only [List.any_eq_true]
      exact ⟨parts, hp, fp, hfp, by simp⟩

theorem findA_result_matches (sections : List SectionA) (fp : String) (it : PlexItemA)
    (h : (findMediaByPathA sections fp).result = some it) :
    itemHasPath it fp = true := by
  induction sections with
  | nil => simp [findMediaByPathA] at h
  | cons s rest ih =>
    simp only [findMediaByPathA] at h
    by_cases hs : s.err
    · simp [hs] at h
      exact ih h
    · cases hf : s.items.find? (fun x => itemHasPath x fp) with
      | some x =>
        simp [hs, hf] at h
        subst h
        simpa using List.find?_some hf
      | none =>
        simp [hs, hf] at h
        exact ih h

/-- C9: the in-repository search of `migrate_playlist.py` matches by exact
string equality of `part.file` with the searched file path: every returned
item carries a media part whose indexed path equals the searched path
exactly, and an item none of whose indexed paths equals the searched path —
however close (prefix, suffix, or otherwise normalized) — is never
returned. -/
theorem exact_path_equality_match (sections : List SectionA) (fp : String) (it : PlexItemA)
    (h : (findMediaByPathA sections fp).result = some it) :
    (∃ ms, it.media = some ms ∧ ∃ parts ∈ ms, fp ∈ parts)
    ∧ ∀ it2 : PlexItemA,
        (∀ ms, it2.media = some ms → ∀ parts ∈ ms, fp ∉ parts) →
          (findMediaByPathA sections fp).result ≠ some it2 := by
  constructor
  · exact (itemHasPath_iff it fp).mp (findA_result_matches sections fp it h)
  · intro it2 hno heq
    obtain ⟨ms, hms, parts, hp, hfp⟩ :=
      (itemHasPath_iff it2 fp).mp (findA_result_matches sections fp it2 heq)
    exact hno ms hms parts hp hfp

/-- Witness for C9: the item indexing the exact path is matched, and the
item indexing only a suffix-extended variant of the path is never
matched. -/
theorem exact_path_equality_match_witness :
    (findMediaByPathA
        [⟨"S", false, [⟨"Y", some [["/m/a.mp3x"]]⟩, ⟨"X", some [["/m/a.mp3"]]⟩]⟩]
        "/m/a.mp3").result = some ⟨"X", some [["/m/a.mp3"]]⟩
    ∧ (∃ ms, (PlexItemA.mk "X" (some [["/m/a.mp3"]])).media = some ms
        ∧ ∃ parts ∈ ms, "/m/a.mp3" ∈ parts)
    ∧ (findMediaByPathA
        [⟨"S", false, [⟨"Y", some [["/m/a.mp3x"]]⟩, ⟨"X", some [["/m/a.mp3"]]⟩]⟩]
        "/m/a.mp3").result ≠ some ⟨"Y", some [["/m/a.mp3x"]]⟩ := by
  have h := exact_path_equality_match
    [⟨"S", false, [⟨"Y", some [["/m/a.mp3x"]]⟩, ⟨"X", some [["/m/a.mp3"]]⟩]⟩]
    "/m/a.mp3" ⟨"X", some [["/m/a.mp3"]]⟩ (by decide)
  refine ⟨by decide, h.1, h.2 ⟨"Y", some [["/m/a.mp3x"]]⟩ ?_⟩
  intro ms hms parts hp
  simp only [Option.some.injEq] at hms
  subst hms
  simp only [List.mem_singleton] at hp
  subst hp
  decide

/-- C10: every creation call of `playlist_migrator.py` uses the selected
source playlist's name with the literal suffix `" (from Jellyfin)"` — never
the unmodified name — while `migrate_playlist.py` creates under the found
playlist's unmodified name and `cli.py` under the requested name. -/
theorem destination_playlist_name (a : ConfigA) (b : ConfigB) (c : ConfigC) :
    (∀ call ∈ (runB b).createCalls, ∃ tgt fb,
        selectTargetB b.requestedName b.searchResults = some (tgt, fb)
        ∧ call.1 = tgt.name ++ " (from Jellyfin)"
        ∧ call.1 ≠ tgt.name)
    ∧ (∀ call ∈ (runA a).createCalls, ∃ pl,
        findPlaylistByNameA a.requestedName a.playlists = some pl ∧ call.1 = pl.name)
    ∧ (∀ call ∈ (runC c).createCalls, call.1 = c.requestedName) := by
  refine ⟨?_, ?_, ?_⟩
  · intro call hc
    unfold runB at hc
    cases hs : selectTargetB b.requestedName b.searchResults with
    | none => simp [hs] at hc
    | some tf =>
      obtain ⟨tgt, fb⟩ := tf
      simp only [hs] at hc
      by_cases hi : tgt.items.isEmpty
      · simp [hi] at hc
      · by_cases he : (migrateLoopB b.libs tgt.items).1.isEmpty
        · simp [hi, he] at hc
        · simp [hi, he] at hc
          refine ⟨tgt, fb, rfl, by rw [hc], ?_⟩
          rw [hc]
          intro heq
          have hlen := congrArg String.length heq
          rw [String.length_append] at hlen
          have h16 : (" (from Jellyfin)" : String).length = 16 := rfl
          rw [h16] at hlen
          omega
  · intro call hc
    unfold runA at hc
    cases hf : findPlaylistByNameA a.requestedName a.playlists with
    | none => simp [hf] at hc
    | some pl =>
      simp only [hf] at hc
      by_cases he : (migrateLoopA a.sections pl.items).1.isEmpty
      · simp [he] at hc
      · by_cases hd : a.dryRun
        · simp [he, hd] at hc
        · simp [he, hd] at hc
          exact ⟨pl, rfl, by rw [hc]⟩
  · intro call hc
    unfold runC at hc
    cases hf : c.playlists.find? (fun p => p.name == c.requestedName) with
    | none => simp [hf] at hc
    | some pl =>
      simp only [hf] at hc
      by_cases he : (migrateLoopC c.sections pl.items).1.isEmpty
      · simp [he] at hc
      · simp [he] at hc
        rw [hc]

/-- Witness for C10 at the concrete creating runs: the
`playlist_migrator.py` call name carries the suffix and differs from the
source name, the other two use the unmodified/requested name. -/
theorem destination_playlist_name_witness :
    (runB cfgB3).createCalls = [("P (from Jellyfin)", ["XA", "XC"])]
    ∧ (∃ tgt fb, selectTargetB cfgB3.requestedName cfgB3.searchResults = some (tgt, fb)
        ∧ ("P (from Jellyfin)", ["XA", "XC"]).1 = tgt.name ++ " (from Jellyfin)"
        ∧ ("P (from Jellyfin)", ["XA", "XC"]).1 ≠ tgt.name)
    ∧ (∃ pl, findPlaylistByNameA cfgA3.requestedName cfgA3.playlists = some pl
        ∧ ("P", [PlexItemA.mk "XA" (some [["/a"]]), PlexItemA.mk "XC" (some [["/c"]])]).1
            = pl.name)
    ∧ ("P", ["XA", "XC"]).1 = cfgC3.requestedName := by
  have h := destination_playlist_name cfgA3 cfgB3 cfgC3
  exact ⟨by decide,
    h.1 ("P (from Jellyfin)", ["XA", "XC"]) (by decide),
    h.2.1 ("P", [PlexItemA.mk "XA" (some [["/a"]]), PlexItemA.mk "XC" (some [["/c"]])])
      (by decide),
    h.2.2 ("P", ["XA", "XC"]) (by decide)⟩

end VibeHosted
